import Mathlib

/-!
Shallow embedding of the mdso sliding-window photometric bundle adjuster
(namespace `mdso::optimize` of the C++ source) over the rationals.

Scalars of type `T` (C++ `double`) are modelled as `ℚ`.  The C++ `exp`
on doubles can overflow to infinity, so it is modelled by an abstract
function `ℚ → Option ℚ`, where `none` stands for a non-finite result;
`std::isfinite` then corresponds to matching on that option.  External
collaborators (camera models, bicubic interpolators, the robust loss,
MotionDerivatives) are modelled as records of abstract functions, which
is exactly the interface the optimizer consumes.  Runtime CHECK macros
that can abort are modelled by `Option`-valued results (`none` = abort).
-/

namespace Mdso

abbrev Vec2 := Fin 2 → ℚ
abbrev Vec3 := Fin 3 → ℚ
abbrev Vec4 := Fin 4 → ℚ
abbrev Mat23 := Matrix (Fin 2) (Fin 3) ℚ
abbrev Mat33 := Matrix (Fin 3) (Fin 3) ℚ

/-- Rigid transform as stored by `Sophus::SE3` (rotation part + translation).
The rotation is kept as a 3×3 matrix; `Sophus` composition and inverse on
unit quaternions correspond to matrix product and transpose. -/
@[ext]
structure SE3 where
  so3 : Mat33
  t : Vec3
  deriving DecidableEq

/-- Composition `a * b` of rigid transforms (Sophus `operator*`). -/
def SE3.comp (a b : SE3) : SE3 :=
  ⟨a.so3 * b.so3, a.so3.mulVec b.t + a.t⟩

/-- Inverse of a rigid transform (Sophus `SE3::inverse`); for a rotation the
inverse matrix is the transpose. -/
def SE3.inv (a : SE3) : SE3 :=
  ⟨a.so3.transpose, -(a.so3.transpose.mulVec a.t)⟩

/-- Action of a rigid transform on a 3-vector (Sophus `operator*` on points). -/
def SE3.act (a : SE3) (v : Vec3) : Vec3 :=
  a.so3.mulVec v + a.t

/-- Modelled from the spec: `AffineLightTransform` (source file absent from the
repository); the glossary defines it as the map `I → exp(a) · I + b`, and the
optimizer reads the coefficient `exp(a)` back through `.ea()` and the bias
through `.b()`.  We store `ea = exp(a)` directly. -/
structure AffLight where
  ea : ℚ
  b : ℚ
  deriving DecidableEq

/-- Application of an affine light transform to an intensity. -/
def AffLight.apply (l : AffLight) (x : ℚ) : ℚ :=
  l.ea * x + l.b

/-- A robust loss: `Evaluate(v², rho)` fills `rho[0..2]` with the loss value
and its first two derivatives (the `ceres::LossFunction` interface). -/
abbrev LossFunction := ℚ → ℚ × ℚ × ℚ

/-- `ceres::TrivialLoss`: `rho = (s, 1, 0)`. -/
def trivialLoss : LossFunction := fun s => (s, 1, 0)

inductive PointState where
  | ACTIVE
  | OUTLIER
  | OOB
  deriving DecidableEq

/-- `OptimizedPoint`: host pixel, unit ray through it, log-depth, state. -/
structure OptimizedPoint where
  p : Vec2
  dir : Vec3
  logDepth : ℚ
  state : PointState

/-- The camera model as the external interface the optimizer consumes
(`map`, `unmap` (already normalized to a unit ray), `isMappable`,
`isOnImage(p, border)`, `diffMap`). -/
structure CameraModel where
  map : Vec3 → Vec2
  unmap : Vec2 → Vec3
  isMappable : Vec3 → Bool
  isOnImage : Vec2 → ℕ → Bool
  diffMap : Vec3 → Vec2 × Mat23

/-- One camera of the rig: intrinsic model plus fixed extrinsics. -/
structure CameraSlot where
  cam : CameraModel
  thisToBody : SE3
  bodyToThis : SE3

/-- `CameraBundle`: fixed rig, `bundle.size()` cameras. -/
structure CameraBundle where
  bundle : ℕ → CameraSlot
  bundleSize : ℕ

/-- One camera's view in a keyframe: bicubic interpolator returning
intensity and image gradient, the optimized point set, and the affine
light parameters. -/
structure KeyFrameEntry where
  interp : Vec2 → ℚ × Vec2
  optimizedPoints : List OptimizedPoint
  lightWorldToThis : AffLight

/-- A keyframe: body-to-world pose plus one entry per camera. -/
structure KeyFrame where
  thisToWorld : SE3
  frames : ℕ → KeyFrameEntry

/-- The residual-related part of the settings consumed by `Residual`. -/
structure ResidualSettings where
  pattern : List Vec2
  height : ℕ
  weightC : ℚ
  lossEps : ℚ
  depthMin : ℚ
  depthMax : ℚ

/-- Modelled from the spec: the `Parameters` class of `mdso::optimize`
(its source file is absent from the repository; §4.1 of the spec describes
its accessors).  It is the canonical storage the precomputation caches and
`Values`/`Derivatives` read. -/
structure Parameters where
  numKeyFrames : ℕ
  camBundleSize : ℕ
  bodyToWorld : ℕ → SE3
  lightWorldToFrame : ℕ → ℕ → AffLight
  logDepth : ℕ → ℚ

/-- `EnergyFunction::PrecomputedHostToTarget`: the table entry at
`(hostInd, hostCamInd, targetInd, targetCamInd)` as the constructor fills it:
`bodyToCam[tci] * ((bodyToWorld(ti)⁻¹ * bodyToWorld(hi)) * camToBody[hci])`.
Entries with `hostInd == targetInd` are skipped by the constructor and never
read through `get`. -/
def precomputedHostToTarget (cam : CameraBundle) (parameters : Parameters)
    (hostInd hostCamInd targetInd targetCamInd : ℕ) : SE3 :=
  ((cam.bundle targetCamInd).bodyToThis).comp
    ((((parameters.bodyToWorld targetInd).inv).comp
        (parameters.bodyToWorld hostInd)).comp
      ((cam.bundle hostCamInd).thisToBody))

/-- `remapDepthed`: reprojection helper; a non-finite depth (`none`) falls
back to the pure-rotation reprojection of the ray. -/
def remapDepthed (frameToFrame : SE3) (ray : Vec3) (depth : Option ℚ) : Vec3 :=
  match depth with
  | some d => frameToFrame.act (d • ray)
  | none => frameToFrame.so3.mulVec ray

/-- One photometric residual; fields mirror the members the `Residual`
constructor stores (index tuple, target camera, target interpolator, the
referenced point, per-pattern precomputations, loss and settings). -/
structure Residual where
  hostInd : ℕ
  hostCamInd : ℕ
  targetInd : ℕ
  targetCamInd : ℕ
  pointInd : ℕ
  camTarget : CameraModel
  targetInterp : Vec2 → ℚ × Vec2
  point : OptimizedPoint
  hostPoint : Vec2
  hostDir : Vec3
  reprojPattern : List Vec2
  hostIntensities : List ℚ
  gradWeights : List ℚ
  lossFunction : LossFunction
  settings : ResidualSettings

/-- The `Residual` constructor.  `expQ` models `exp` on doubles (`none` =
non-finite), `sqrtQ` models `std::sqrt`.  It precomputes the reprojected
pattern offsets, the host intensities at the pattern pixels and the
Zhang-style gradient weights `c / sqrt(c² + |∇I_host|²)`.  The arithmetic of
the pattern loop on a non-finite depth (C++ infinity) is outside of this
model; no claim depends on it. -/
def mkResidual (expQ : ℚ → Option ℚ) (sqrtQ : ℚ → ℚ)
    (hostInd hostCamInd targetInd targetCamInd pointInd : ℕ)
    (camHost camTarget : CameraModel) (hostFrame targetFrame : KeyFrameEntry)
    (op : OptimizedPoint) (hostToTargetImage : SE3)
    (lossFunction : LossFunction) (settings : ResidualSettings) : Residual :=
  let depthE := expQ op.logDepth
  let depth := depthE.getD settings.depthMax
  let reproj := camTarget.map (remapDepthed hostToTargetImage op.dir depthE)
  let reprojPattern := settings.pattern.map fun off =>
    camTarget.map (hostToTargetImage.act (depth • camHost.unmap (op.p + off))) - reproj
  let hostSamples := settings.pattern.map fun off => hostFrame.interp (op.p + off)
  { hostInd := hostInd, hostCamInd := hostCamInd, targetInd := targetInd
    targetCamInd := targetCamInd, pointInd := pointInd
    camTarget := camTarget, targetInterp := targetFrame.interp
    point := op, hostPoint := op.p, hostDir := op.dir
    reprojPattern := reprojPattern
    hostIntensities := hostSamples.map Prod.fst
    gradWeights := hostSamples.map fun s =>
      let normSq := (s.2 0) * (s.2 0) + (s.2 1) * (s.2 1)
      let c := settings.weightC
      c / sqrtQ (c * c + normSq)
    lossFunction := lossFunction, settings := settings }

/-- `Residual::getValues`: pattern of intensity differences at the current
host-to-target transform, light transform and log-depth. -/
def Residual.getValues (expQ : ℚ → Option ℚ) (r : Residual)
    (hostToTargetImage : SE3) (lightHostToTarget : AffLight)
    (logDepth : ℚ) : List ℚ :=
  let depth := expQ logDepth
  let reproj := r.camTarget.map (remapDepthed hostToTargetImage r.hostDir depth)
  (List.range r.reprojPattern.length).map fun i =>
    let p := reproj + r.reprojPattern.getD i 0
    let targetIntensity := (r.targetInterp p).1
    let hostIntensity := lightHostToTarget.apply (r.hostIntensities.getD i 0)
    targetIntensity - hostIntensity

/-- Sequences a list of fallible values; any `none` (an aborted CHECK)
aborts the whole computation. -/
def sequenceOpt {α : Type} : List (Option α) → Option (List α)
  | [] => some []
  | none :: _ => none
  | some a :: rest =>
    match sequenceOpt rest with
    | some l => some (a :: l)
    | none => none

/-- `Residual::getWeights`: per-sample robust reweighting.  The curvature
`w = ρ₁ + 2 ρ₂ v²` is floored to `lossEps · ρ₁` only when it is negative; in
that branch `CHECK_GE(rho[1], 0)` aborts (modelled by `none`) if `ρ₁ < 0`. -/
def Residual.getWeights (r : Residual) (values : List ℚ) : Option (List ℚ) :=
  sequenceOpt <| (List.range r.gradWeights.length).map fun i =>
    let v := values.getD i 0
    let v2 := v * v
    let rho := r.lossFunction v2
    let w := rho.2.1 + 2 * rho.2.2 * v2
    if w < 0 then
      if 0 ≤ rho.2.1 then some (r.gradWeights.getD i 0 * (r.settings.lossEps * rho.2.1))
      else none
    else some (r.gradWeights.getD i 0 * w)

/-- `MotionDerivatives` as the interface `Residual::getJacobian` consumes
(its implementation file is not part of the embedded sources). -/
structure MotionDerivatives where
  daction_dq_host : Vec4 → Matrix (Fin 3) (Fin 4) ℚ
  daction_dt_host : Mat33
  daction_dq_target : Vec4 → Matrix (Fin 3) (Fin 4) ℚ
  daction_dt_target : Mat33

def makeHomogeneous (v : Vec3) : Vec4 :=
  ![v 0, v 1, v 2, 1]

/-- Per-frame part of a residual Jacobian (`Residual::Jacobian::DiffFrameParams`).
`dr_dab` holds one `(∂r/∂a, ∂r/∂b)` row per pattern sample. -/
structure DiffFrameParams where
  dp_dq : Matrix (Fin 2) (Fin 4) ℚ
  dp_dt : Mat23
  dr_dab : List (ℚ × ℚ)
  deriving DecidableEq

/-- `Residual::Jacobian`. -/
structure ResidualJacobian where
  dhost : DiffFrameParams
  dtarget : DiffFrameParams
  dp_dlogd : Vec2
  gradItarget : List Vec2
  isInfDepth : Bool
  deriving DecidableEq

/-- `Residual::getJacobian`.  A non-finite depth sets `isInfDepth` and
replaces the depth by `settings.depth.max`; all blocks are then computed at
that finite depth. -/
def Residual.getJacobian (expQ : ℚ → Option ℚ) (r : Residual)
    (hostToTarget : SE3) (dHostToTarget : MotionDerivatives)
    (lightWorldToHost lightHostToTarget : AffLight)
    (logDepth : ℚ) : ResidualJacobian :=
  let depthFlag : Bool × ℚ :=
    match expQ logDepth with
    | some d => (false, d)
    | none => (true, r.settings.depthMax)
  let hostVec := depthFlag.2 • r.hostDir
  let hostVecH := makeHomogeneous hostVec
  let targetVec := hostToTarget.act hostVec
  let md := r.camTarget.diffMap targetVec
  let reproj := md.1
  let dpi := md.2
  let gradItarget := (List.range r.reprojPattern.length).map fun i =>
    (r.targetInterp (reproj + r.reprojPattern.getD i 0)).2
  let abRows := (List.range r.reprojPattern.length).map fun i =>
    lightHostToTarget.ea * (r.hostIntensities.getD i 0 - lightWorldToHost.b)
  { dhost :=
      { dp_dq := dpi * dHostToTarget.daction_dq_host hostVecH
        dp_dt := dpi * dHostToTarget.daction_dt_host
        dr_dab := abRows.map fun d_da => (d_da, lightHostToTarget.ea) }
    dtarget :=
      { dp_dq := dpi * dHostToTarget.daction_dq_target hostVecH
        dp_dt := dpi * dHostToTarget.daction_dt_target
        dr_dab := abRows.map fun d_da => (-d_da, -1) }
    dp_dlogd := dpi.mulVec (hostToTarget.so3.mulVec hostVec)
    gradItarget := gradItarget
    isInfDepth := depthFlag.1 }

/-- Modelled from the spec: composition of affine light transforms
(`AffineLightTransform::operator*`, source file absent):
`(f * g)(x) = f(g(x))`. -/
def AffLight.comp (f g : AffLight) : AffLight :=
  ⟨f.ea * g.ea, f.ea * g.b + f.b⟩

/-- Modelled from the spec: inverse of an affine light transform
(`AffineLightTransform::inverse`, source file absent). -/
def AffLight.inverse (f : AffLight) : AffLight :=
  ⟨1 / f.ea, -(f.b / f.ea)⟩

/-- `EnergyFunction::PrecomputedLightHostToTarget::get`:
`lightWorldToFrame(ti, tci) * lightWorldToFrame(hi, hci)⁻¹`. -/
def precomputedLightHostToTarget (parameters : Parameters)
    (hostInd hostCamInd targetInd targetCamInd : ℕ) : AffLight :=
  (parameters.lightWorldToFrame targetInd targetCamInd).comp
    ((parameters.lightWorldToFrame hostInd hostCamInd).inverse)

/-- Modelled from the spec: the `Parameters` constructor mirrors the
keyframes' external storage (poses, affine parameters) at `EnergyFunction`
construction. -/
def mkParameters (cam : CameraBundle) (keyFrames : ℕ → KeyFrame)
    (numKeyFrames : ℕ) (logDepthOf : ℕ → ℚ) : Parameters :=
  { numKeyFrames := numKeyFrames
    camBundleSize := cam.bundleSize
    bodyToWorld := fun i => (keyFrames i).thisToWorld
    lightWorldToFrame := fun i c => ((keyFrames i).frames c).lightWorldToThis
    logDepth := logDepthOf }

/-- The inner target scan of the `EnergyFunction` constructor: for one
active point of `(hostInd, hostCamInd)` with ray `depth · dir`, the list of
`(targetInd, targetCamInd)` pairs that pass the skip tests
(`hostInd == targetInd`, `isMappable`, `isOnImage` with border
`residualPattern.height`). -/
def residualTargets (cam : CameraBundle) (parameters : Parameters)
    (numKeyFrames PH : ℕ) (hostInd hostCamInd : ℕ) (ray : Vec3) :
    List (ℕ × ℕ) :=
  (List.range numKeyFrames).flatMap fun targetInd =>
    if hostInd = targetInd then []
    else
      (List.range cam.bundleSize).filterMap fun targetCamInd =>
        let hostToTargetImage :=
          precomputedHostToTarget cam parameters hostInd hostCamInd targetInd targetCamInd
        let camTarget := (cam.bundle targetCamInd).cam
        let rayTarget := hostToTargetImage.act ray
        if camTarget.isMappable rayTarget then
          if camTarget.isOnImage (camTarget.map rayTarget) PH then
            some (targetInd, targetCamInd)
          else none
        else none

/-- One step of the `EnergyFunction` constructor's point loop: a non-ACTIVE
point is skipped; a point whose target scan is empty contributes nothing
(and is not pushed to `optimizedPoints`); otherwise one residual per
surviving `(targetInd, targetCamInd)` is appended, all sharing the point's
index in the accumulated `optimizedPoints` vector. -/
def constructStep (expQ : ℚ → Option ℚ) (sqrtQ : ℚ → ℚ)
    (depthOf : OptimizedPoint → ℚ) (cam : CameraBundle)
    (keyFrames : ℕ → KeyFrame) (numKeyFrames : ℕ)
    (lossFunction : LossFunction) (settings : ResidualSettings)
    (parameters : Parameters) (acc : List Residual × ℕ)
    (t : ℕ × ℕ × OptimizedPoint) : List Residual × ℕ :=
  let hostInd := t.1
  let hostCamInd := t.2.1
  let op := t.2.2
  if op.state = PointState.ACTIVE then
    let ray := depthOf op • op.dir
    let ts := residualTargets cam parameters numKeyFrames settings.height
      hostInd hostCamInd ray
    if ts.isEmpty then acc
    else
      (acc.1 ++ ts.map fun tc =>
        mkResidual expQ sqrtQ hostInd hostCamInd tc.1 tc.2 acc.2
          ((cam.bundle hostCamInd).cam) ((cam.bundle tc.2).cam)
          ((keyFrames hostInd).frames hostCamInd)
          ((keyFrames tc.1).frames tc.2) op
          (precomputedHostToTarget cam parameters hostInd hostCamInd tc.1 tc.2)
          lossFunction settings,
        acc.2 + 1)
  else acc

/-- The `EnergyFunction` constructor's residual build: iterates hosts,
host cameras and their optimized points in order, applying `constructStep`.
`depthOf` models `OptimizedPoint::depth()` (`exp(logDepth)`, header not
among the embedded sources).  Returns the residual list and the number of
points kept. -/
def constructResiduals (expQ : ℚ → Option ℚ) (sqrtQ : ℚ → ℚ)
    (depthOf : OptimizedPoint → ℚ) (cam : CameraBundle)
    (keyFrames : ℕ → KeyFrame) (numKeyFrames : ℕ)
    (lossFunction : LossFunction) (settings : ResidualSettings)
    (parameters : Parameters) : List Residual × ℕ :=
  let hostTriples := (List.range numKeyFrames).flatMap fun hostInd =>
    (List.range cam.bundleSize).flatMap fun hostCamInd =>
      ((keyFrames hostInd).frames hostCamInd).optimizedPoints.map fun op =>
        (hostInd, hostCamInd, op)
  hostTriples.foldl
    (constructStep expQ sqrtQ depthOf cam keyFrames numKeyFrames lossFunction
      settings parameters)
    ([], 0)

/-- `EnergyFunction::Values`: the container of all residuals' current
pattern values, together with the loss used to turn them into an energy. -/
structure Values where
  valsAndCache : List (List ℚ)
  lossFunction : LossFunction

/-- The `Values` constructor: one `getValues` evaluation per residual, fed
from the precomputed host-to-target and light tables and the current
log-depth of the residual's point. -/
def createValues (expQ : ℚ → Option ℚ) (residuals : List Residual)
    (parameters : Parameters) (cam : CameraBundle)
    (lossFunction : LossFunction) : Values :=
  { valsAndCache := residuals.map fun res =>
      res.getValues expQ
        (precomputedHostToTarget cam parameters
          res.hostInd res.hostCamInd res.targetInd res.targetCamInd)
        (precomputedLightHostToTarget parameters
          res.hostInd res.hostCamInd res.targetInd res.targetCamInd)
        (parameters.logDepth res.pointInd)
    lossFunction := lossFunction }

/-- `EnergyFunction::Values::totalEnergy`: `CHECK_GT(valsAndCache.size(), 0)`
aborts on an empty residual set (`none`); otherwise the pattern length of
the first residual bounds the inner loop and the robust loss values
`ρ(v²)` are accumulated, without any per-sample weight. -/
def Values.totalEnergy (v : Values) : Option ℚ :=
  if 0 < v.valsAndCache.length then
    let patternSize := (v.valsAndCache.headD []).length
    some (v.valsAndCache.foldl
      (fun acc vals =>
        (List.range patternSize).foldl
          (fun a i =>
            let x := vals.getD i 0
            a + (v.lossFunction (x * x)).1)
          acc)
      0)
  else none

/-- `Settings::Optimization::StepControl` as consumed by `StepController`. -/
structure StepControlSettings where
  initialLambda : ℚ
  acceptedQuality : ℚ
  minLambdaMultiplier : ℚ
  initialFailMultiplier : ℚ
  failMultiplierMultiplier : ℚ

/-- The mutable state of `StepController`. -/
structure StepController where
  mLambda : ℚ
  failMultiplier : ℚ
  deriving DecidableEq

/-- `StepController::newStep`: quality-ratio driven damping update; returns
whether the step was successful together with the updated state. -/
def StepController.newStep (settings : StepControlSettings)
    (sc : StepController) (oldEnergy newEnergy predictedEnergy : ℚ) :
    Bool × StepController :=
  let predictedDiff0 := oldEnergy - predictedEnergy
  let actualDiff0 := oldEnergy - newEnergy
  let predictedDiff := if predictedDiff0 < 0 then -predictedDiff0 else predictedDiff0
  let actualDiff := if predictedDiff0 < 0 then -actualDiff0 else actualDiff0
  let predictionQuality := actualDiff / predictedDiff
  let q2m1 := 2 * predictionQuality - 1
  if settings.acceptedQuality < predictionQuality then
    (true,
      { mLambda := sc.mLambda *
          max settings.minLambdaMultiplier (1 - q2m1 * q2m1 * q2m1)
        failMultiplier := settings.initialFailMultiplier })
  else
    (false,
      { mLambda := sc.mLambda * sc.failMultiplier
        failMultiplier := sc.failMultiplier * settings.failMultiplierMultiplier })

/-- The prediction-quality ratio `q` of `StepController::newStep`, after
the sign normalization: `Δ_obs / Δ_pred` with both reductions flipped when
the predicted one is negative. -/
def predictionQualityOf (oldEnergy newEnergy predictedEnergy : ℚ) : ℚ :=
  let predictedDiff0 := oldEnergy - predictedEnergy
  let actualDiff0 := oldEnergy - newEnergy
  let predictedDiff := if predictedDiff0 < 0 then -predictedDiff0 else predictedDiff0
  let actualDiff := if predictedDiff0 < 0 then -actualDiff0 else actualDiff0
  actualDiff / predictedDiff

/-- The part of `Settings::Optimization` that `EnergyFunction::optimize`
reads. -/
structure OptimizeSettings where
  initialLambda : ℚ
  failMultiplier : ℚ
  successMultiplier : ℚ

/-- The operations `EnergyFunction::optimize` composes, abstracted over the
parameter storage `P`, the linearization data `HG` (motion derivatives,
`Derivatives`, Hessian and gradient) and the solved step `D`:
`energy` is `createValues` followed by `totalEnergy` at the given
parameters, `linearize` recomputes `HG` at the given parameters,
`solveDelta` is LM damping with the given lambda followed by the Schur
solve, and `update` is `Parameters::update`. -/
structure OptimizeOps (P HG D : Type) where
  energy : P → ℚ
  linearize : P → HG
  solveDelta : HG → ℚ → D
  update : P → D → P

/-- The loop state of `EnergyFunction::optimize`: parameter block, damping
lambda, cached linearization, the flag telling whether parameters changed in
the previous iteration, the cached current energy (`curValues.totalEnergy()`)
and the residual set (fixed at construction). -/
structure OptState (P HG : Type) where
  parameters : P
  lambda : ℚ
  hg : HG
  parametersUpdated : Bool
  curEnergy : ℚ
  residuals : List Residual

/-- One iteration of the `EnergyFunction::optimize` loop.  The Hessian and
gradient are recomputed only when the previous iteration accepted; the
trial parameters are kept exactly when the new energy is strictly below the
current one, otherwise the snapshot saved before `update` is restored
(`Parameters::saveState` / `recoverState`, modelled from the spec as an
exact snapshot of the parameter block). -/
def optStep {P HG D : Type} (ops : OptimizeOps P HG D) (s : OptimizeSettings)
    (st : OptState P HG) : OptState P HG :=
  let curEnergy := st.curEnergy
  let hg := if st.parametersUpdated then ops.linearize st.parameters else st.hg
  let delta := ops.solveDelta hg st.lambda
  let savedState := st.parameters
  let updated := ops.update st.parameters delta
  let newEnergy := ops.energy updated
  if curEnergy ≤ newEnergy then
    { parameters := savedState
      lambda := st.lambda * s.failMultiplier
      hg := hg
      parametersUpdated := false
      curEnergy := curEnergy
      residuals := st.residuals }
  else
    { parameters := updated
      lambda := st.lambda * s.successMultiplier
      hg := hg
      parametersUpdated := true
      curEnergy := newEnergy
      residuals := st.residuals }

/-- `maxIterations` iterations of the optimize loop. -/
def optIterate {P HG D : Type} (ops : OptimizeOps P HG D)
    (s : OptimizeSettings) : ℕ → OptState P HG → OptState P HG
  | 0, st => st
  | n + 1, st => optIterate ops s n (optStep ops s st)

/-- The state `EnergyFunction::optimize` sets up before its loop: initial
lambda from the settings, precomputed values/derivatives/Hessian/gradient at
the initial parameters, `parametersUpdated = false`. -/
def initOptState {P HG D : Type} (ops : OptimizeOps P HG D)
    (s : OptimizeSettings) (p : P) (residuals : List Residual) :
    OptState P HG :=
  { parameters := p
    lambda := s.initialLambda
    hg := ops.linearize p
    parametersUpdated := false
    curEnergy := ops.energy p
    residuals := residuals }

/-- `DeltaParameterVector`: the solved minimal-parameter step; per-frame
pose block, per-(frame, camera) affine block, per-point depth block,
together with the dimensions of its `frameParameterOrder`. -/
structure DeltaParameterVector where
  numKeyFrames : ℕ
  numCameras : ℕ
  pose : ℕ → Fin 7 → ℚ
  aff : ℕ → ℕ → ℚ × ℚ
  point : ℕ → ℚ

/-- `DeltaParameterVector::setAffineZero`: zeroes the affine blocks of
frames `1 .. numKeyFrames-1`, leaving frame 0's block untouched. -/
def DeltaParameterVector.setAffineZero (d : DeltaParameterVector) :
    DeltaParameterVector :=
  { d with aff := fun frameInd camInd =>
      if 1 ≤ frameInd ∧ frameInd < d.numKeyFrames ∧ camInd < d.numCameras
      then (0, 0) else d.aff frameInd camInd }

/-- Modelled from the spec: the delta mask of `Parameters::update`
(source file absent) — "keyframe 0 pose and affine ... are enforced by
masking the corresponding delta entries to zero before application". -/
def maskDelta (d : DeltaParameterVector) : DeltaParameterVector :=
  { d with
    pose := fun i => if i = 0 then fun _ => 0 else d.pose i
    aff := fun i c => if i = 0 then (0, 0) else d.aff i c }

/-- Modelled from the spec: `Parameters::update` (source file absent)
applies a masked tangent-space delta to every stored pose, affine pair and
log-depth; the per-group application maps (`exp(ξ)` right-multiplication,
affine addition, depth clamped addition) are abstract. -/
def Parameters.update (applyPose : SE3 → (Fin 7 → ℚ) → SE3)
    (applyAff : AffLight → ℚ × ℚ → AffLight) (applyDepth : ℚ → ℚ → ℚ)
    (p : Parameters) (delta : DeltaParameterVector) : Parameters :=
  let masked := maskDelta delta
  { numKeyFrames := p.numKeyFrames
    camBundleSize := p.camBundleSize
    bodyToWorld := fun i => applyPose (p.bodyToWorld i) (masked.pose i)
    lightWorldToFrame := fun i c => applyAff (p.lightWorldToFrame i c) (masked.aff i c)
    logDepth := fun j => applyDepth (p.logDepth j) (masked.point j) }

/-- A ceres parameter block of `BundleAdjusterCeres::adjust`: a frame's
translation, its rotation, or one of its per-camera affine pairs. -/
inductive CeresBlock where
  | trans (frameInd : ℕ)
  | rot (frameInd : ℕ)
  | aff (frameInd : ℕ) (camInd : ℕ)
  deriving DecidableEq

/-- The settings `BundleAdjusterCeres::adjust` consults when fixing
parameter blocks. -/
structure BundleAdjusterSettings where
  optimizeAffineLight : Bool
  minFirstToSecondRadius : ℚ
  fixedRotationOnSecondKF : Bool
  fixedMotionOnFirstAdjustent : Bool

/-- The parameter blocks `BundleAdjusterCeres::adjust` passes to
`SetParameterBlockConstant`, in program order: all affine blocks when
affine-light optimization is off; keyframe 0's translation, rotation and
affine blocks unconditionally; keyframe 1's translation when the baseline
radius does not exceed the minimum; keyframe 1's rotation under
`fixedRotationOnSecondKF`; keyframe 1's full pose under
`fixedMotionOnFirstAdjustent` with exactly two keyframes.  `radius` is the
keyframe-0-to-1 translation distance (a Euclidean norm, computed outside
this model). -/
def constantBlocks (s : BundleAdjusterSettings) (numCameras size : ℕ)
    (radius : ℚ) : List CeresBlock :=
  (if s.optimizeAffineLight then []
   else (List.range size).flatMap fun i =>
     (List.range numCameras).map fun c => CeresBlock.aff i c)
  ++ [CeresBlock.trans 0, CeresBlock.rot 0]
  ++ (List.range numCameras).map (fun c => CeresBlock.aff 0 c)
  ++ (if radius > s.minFirstToSecondRadius then [] else [CeresBlock.trans 1])
  ++ (if s.fixedRotationOnSecondKF then [CeresBlock.rot 1] else [])
  ++ (if s.fixedMotionOnFirstAdjustent ∧ size = 2 then
        [CeresBlock.trans 1, CeresBlock.rot 1] else [])

/-- The admissibility conditions of one `(host, hostCam, target, targetCam,
point)` combination in the `EnergyFunction` constructor: distinct host and
target frames, an ACTIVE point, and a mappable, on-image (within border
`PH`) reprojection of the point's ray under the precomputed host-to-target
transform. -/
def residualConditions (cam : CameraBundle) (parameters : Parameters)
    (PH : ℕ) (depthOf : OptimizedPoint → ℚ)
    (hostInd hostCamInd targetInd targetCamInd : ℕ)
    (op : OptimizedPoint) : Prop :=
  hostInd ≠ targetInd ∧
  op.state = PointState.ACTIVE ∧
  ((cam.bundle targetCamInd).cam.isMappable
      ((precomputedHostToTarget cam parameters
          hostInd hostCamInd targetInd targetCamInd).act
        (depthOf op • op.dir)) = true) ∧
  ((cam.bundle targetCamInd).cam.isOnImage
      ((cam.bundle targetCamInd).cam.map
        ((precomputedHostToTarget cam parameters
            hostInd hostCamInd targetInd targetCamInd).act
          (depthOf op • op.dir))) PH = true)

/-- The invariant claim C3 asserts for every constructed residual: its own
index tuple and referenced point satisfy `residualConditions`. -/
def residualInvariant (cam : CameraBundle) (parameters : Parameters)
    (PH : ℕ) (depthOf : OptimizedPoint → ℚ) (r : Residual) : Prop :=
  residualConditions cam parameters PH depthOf
    r.hostInd r.hostCamInd r.targetInd r.targetCamInd r.point

/-- Spec-side formula of claim C2, following its words: total energy as
`Σ_residuals Σ_i w_i · ρ(r_i²)` with `w_i` produced by
`Residual::getWeights` on the residual's current pattern values. -/
def totalEnergyClaimC2 (residuals : List Residual)
    (vals : List (List ℚ)) : Option ℚ :=
  (sequenceOpt <| (residuals.zip vals).map fun rv =>
    (rv.1.getWeights rv.2).map fun ws =>
      (List.range rv.2.length).foldl
        (fun a i =>
          let x := rv.2.getD i 0
          a + ws.getD i 0 * (rv.1.lossFunction (x * x)).1)
        0).map List.sum

/-- Spec-side formula of claim C6, following its words: per-sample weight
`gradWeights[i] · max(ρ₁ + 2 ρ₂ v_i², ε · ρ₁)`. -/
def getWeightsClaimC6 (r : Residual) (values : List ℚ) : List ℚ :=
  (List.range r.gradWeights.length).map fun i =>
    let v := values.getD i 0
    let v2 := v * v
    let rho := r.lossFunction v2
    r.gradWeights.getD i 0 *
      max (rho.2.1 + 2 * rho.2.2 * v2) (r.settings.lossEps * rho.2.1)

/-- Spec-side description of `getValues` under non-finite depth, following
the spec's words: the center reprojection uses only the rotation part of the
host-to-target transform. -/
def Residual.getValuesPureRotation (r : Residual) (hostToTargetImage : SE3)
    (lightHostToTarget : AffLight) : List ℚ :=
  let reproj := r.camTarget.map (hostToTargetImage.so3.mulVec r.hostDir)
  (List.range r.reprojPattern.length).map fun i =>
    let p := reproj + r.reprojPattern.getD i 0
    let targetIntensity := (r.targetInterp p).1
    let hostIntensity := lightHostToTarget.apply (r.hostIntensities.getD i 0)
    targetIntensity - hostIntensity

/-- Spec-side description of the "rotation-only Jacobian" claim C8 asserts
for non-finite depth, following the spec's words: the Jacobian evaluated at
the pure-rotation reprojection of the host direction (infinite depth). -/
def Residual.getJacobianRotationOnlyClaim (r : Residual) (hostToTarget : SE3)
    (dHostToTarget : MotionDerivatives)
    (lightWorldToHost lightHostToTarget : AffLight) : ResidualJacobian :=
  let hostVec := r.hostDir
  let hostVecH := makeHomogeneous hostVec
  let targetVec := hostToTarget.so3.mulVec hostVec
  let md := r.camTarget.diffMap targetVec
  let reproj := md.1
  let dpi := md.2
  let gradItarget := (List.range r.reprojPattern.length).map fun i =>
    (r.targetInterp (reproj + r.reprojPattern.getD i 0)).2
  let abRows := (List.range r.reprojPattern.length).map fun i =>
    lightHostToTarget.ea * (r.hostIntensities.getD i 0 - lightWorldToHost.b)
  { dhost :=
      { dp_dq := dpi * dHostToTarget.daction_dq_host hostVecH
        dp_dt := dpi * dHostToTarget.daction_dt_host
        dr_dab := abRows.map fun d_da => (d_da, lightHostToTarget.ea) }
    dtarget :=
      { dp_dq := dpi * dHostToTarget.daction_dq_target hostVecH
        dp_dt := dpi * dHostToTarget.daction_dt_target
        dr_dab := abRows.map fun d_da => (-d_da, -1) }
    dp_dlogd := dpi.mulVec (hostToTarget.so3.mulVec hostVec)
    gradItarget := gradItarget
    isInfDepth := true }

/-- Spec-side model of claim C5's damping schedule, following its words:
on each rejected iteration `λ ← λ · failMultiplier` with the running
`failMultiplier` itself multiplied by `failMultiplierMultiplier`. -/
def lambdaBackoffClaimC5 (failMultiplierMultiplier : ℚ) :
    ℕ → ℚ × ℚ → ℚ × ℚ
  | 0, lf => lf
  | n + 1, lf =>
    lambdaBackoffClaimC5 failMultiplierMultiplier n
      (lf.1 * lf.2, lf.2 * failMultiplierMultiplier)

/-! Concrete instances used by witnesses and counterexamples. -/

/-- A simple pinhole-like camera used in concrete evaluations: projection
drops the third coordinate. -/
def camXY : CameraModel where
  map := fun v => ![v 0, v 1]
  unmap := fun p => ![p 0, p 1, 1]
  isMappable := fun _ => true
  isOnImage := fun _ _ => true
  diffMap := fun v => (![v 0, v 1], Matrix.of ![![1, 0, 0], ![0, 1, 0]])

/-- The identity rigid transform. -/
def se3Id : SE3 := ⟨1, 0⟩

/-- The identity affine light transform. -/
def affId : AffLight := ⟨1, 0⟩

/-- A pattern-size-1 residual settings record for concrete evaluations. -/
def settingsW : ResidualSettings :=
  { pattern := [![0, 0]], height := 0, weightC := 1, lossEps := 1 / 100
    depthMin := 1 / 100, depthMax := 2 }

/-- A concrete pattern-size-1 residual with gradient weight `1/2` and the
trivial loss. -/
def resW2 : Residual :=
  { hostInd := 0, hostCamInd := 0, targetInd := 1, targetCamInd := 0
    pointInd := 0, camTarget := camXY
    targetInterp := fun _ => (1, ![0, 0])
    point := ⟨![0, 0], ![0, 0, 1], 0, PointState.ACTIVE⟩
    hostPoint := ![0, 0], hostDir := ![0, 0, 1]
    reprojPattern := [![0, 0]], hostIntensities := [0]
    gradWeights := [1 / 2], lossFunction := trivialLoss
    settings := settingsW }

/-- A concrete residual whose loss has `ρ₁ + 2 ρ₂ v² = 0` at `v = 1`, as the
Huber loss does exactly on its linear tail. -/
def resW6 : Residual :=
  { resW2 with gradWeights := [1], lossFunction := fun s => (s, 1, -(1 / 2)) }

/-- A concrete residual for the non-finite-depth evaluations: unit ray along
the x-axis, target interpolator whose gradient reports the query position. -/
def resW8 : Residual :=
  { resW2 with hostDir := ![1, 0, 0]
               targetInterp := fun p => (0, ![p 0, p 1]) }

/-- A host-to-target transform with identity rotation and a nonzero
translation along the optical axis. -/
def se3W8 : SE3 := ⟨1, ![0, 0, 5]⟩

/-- Motion derivatives that vanish identically; enough for evaluating the
reprojection-dependent parts of a Jacobian. -/
def mdZero : MotionDerivatives := ⟨fun _ => 0, 0, fun _ => 0, 0⟩

/-- A keyframe entry holding one active point at the origin pixel. -/
def entryW3h : KeyFrameEntry :=
  ⟨fun _ => (0, ![0, 0]), [⟨![0, 0], ![0, 0, 1], 0, PointState.ACTIVE⟩], affId⟩

/-- A keyframe entry with no optimized points. -/
def entryW3t : KeyFrameEntry := ⟨fun _ => (0, ![0, 0]), [], affId⟩

/-- A one-camera bundle built from `camXY` with identity extrinsics. -/
def camBundleW : CameraBundle := ⟨fun _ => ⟨camXY, se3Id, se3Id⟩, 1⟩

/-- A two-keyframe scene: keyframe 0 hosts one active point, keyframe 1 is
empty. -/
def keyFramesW : ℕ → KeyFrame := fun i =>
  if i = 0 then ⟨se3Id, fun _ => entryW3h⟩ else ⟨se3Id, fun _ => entryW3t⟩

/-- The mirrored parameters of the concrete two-keyframe scene. -/
def parametersW : Parameters := mkParameters camBundleW keyFramesW 2 (fun _ => 0)

/-- A default residual (used only as a `headD` fallback). -/
def residualDefault : Residual :=
  { hostInd := 0, hostCamInd := 0, targetInd := 0, targetCamInd := 0
    pointInd := 0, camTarget := camXY, targetInterp := fun _ => (0, ![0, 0])
    point := ⟨![0, 0], ![0, 0, 1], 0, PointState.OUTLIER⟩
    hostPoint := ![0, 0], hostDir := ![0, 0, 1]
    reprojPattern := [], hostIntensities := [], gradWeights := []
    lossFunction := trivialLoss, settings := settingsW }

/-- A rigid gauge transform with a genuine (permutation) rotation and a
nonzero translation. -/
def gaugeW : SE3 := ⟨Matrix.of ![![0, -1, 0], ![1, 0, 0], ![0, 0, 1]], ![1, 2, 3]⟩

/-- Concrete pose application for the parameter-update model: add the first
three delta entries to the translation. -/
def applyPoseW : SE3 → (Fin 7 → ℚ) → SE3 :=
  fun x d => ⟨x.so3, x.t + ![d 0, d 1, d 2]⟩

/-- Concrete affine application for the parameter-update model. -/
def applyAffW : AffLight → ℚ × ℚ → AffLight :=
  fun l d => ⟨l.ea + d.1, l.b + d.2⟩

/-- Concrete depth application for the parameter-update model. -/
def applyDepthW : ℚ → ℚ → ℚ := fun x d => x + d

/-- Trivial optimize operations rejecting every step: constant energy. -/
def opsRejectW : OptimizeOps Unit Unit Unit :=
  ⟨fun _ => 0, fun _ => (), fun _ _ => (), fun p _ => p⟩

/-- Optimize operations over scalar parameters whose update increases the
energy, forcing a rejection. -/
def opsIncW : OptimizeOps ℚ Unit Unit :=
  ⟨id, fun _ => (), fun _ _ => (), fun p _ => p + 1⟩

/-- Optimize settings with `failMultiplier = 2`, `successMultiplier = 1/2`. -/
def optSettingsW : OptimizeSettings := ⟨1, 2, 1 / 2⟩

/-- A rejecting start state for the trivial operations. -/
def stRejectW : OptState Unit Unit := ⟨(), 1, (), false, 0, []⟩

/-- A start state for the scalar operations with current energy `5`. -/
def stIncW : OptState ℚ Unit := ⟨5, 1, (), false, 5, []⟩

/-- A concrete nonzero delta vector for the parameter-update model. -/
def deltaW : DeltaParameterVector :=
  ⟨2, 1, fun _ _ => 1, fun _ _ => (1, 1), fun _ => 1⟩

/-- An optimize-loop state over the concrete two-keyframe parameters. -/
def stParamsW : OptState Parameters Unit := ⟨parametersW, 1, (), false, 0, []⟩

/-! Helper lemmas. -/

theorem sequenceOpt_map_some {α β : Type} (l : List α) (f : α → Option β)
    (g : α → β) (h : ∀ x ∈ l, f x = some (g x)) :
    sequenceOpt (l.map f) = some (l.map g) := by
  induction l with
  | nil => rfl
  | cons a t ih =>
    have ha := h a (List.mem_cons_self a t)
    have ht := ih fun x hx => h x (List.mem_cons_of_mem a hx)
    rw [List.map_cons, ha, List.map_cons]
    simp [sequenceOpt, ht]

theorem foldl_add_map {α : Type} (g : α → ℚ) (l : List α) (c : ℚ) :
    l.foldl (fun a x => a + g x) c = c + (l.map g).sum := by
  induction l generalizing c with
  | nil => simp
  | cons a t ih => simp [ih, add_assoc]

theorem range_map_getD {α : Type} (d : α) (l : List α) :
    (List.range l.length).map (fun i => l.getD i d) = l := by
  induction l with
  | nil => rfl
  | cons a t ih =>
    rw [List.length_cons, List.range_succ_eq_map, List.map_cons,
      List.map_map]
    have key : (List.range t.length).map ((fun i => (a :: t).getD i d) ∘ Nat.succ)
        = t := by
      have hfun : ((fun i => (a :: t).getD i d) ∘ Nat.succ)
          = (fun i => t.getD i d) := rfl
      rw [hfun, ih]
    rw [key]
    rfl

theorem foldl_range_getD (f : ℚ → ℚ) (l : List ℚ) (c : ℚ) :
    (List.range l.length).foldl (fun a i => a + f (l.getD i 0)) c =
      c + (l.map f).sum := by
  rw [foldl_add_map (fun i => f (l.getD i 0)) (List.range l.length) c]
  congr 1
  have h1 : (List.range l.length).map (fun i => f (l.getD i 0))
      = ((List.range l.length).map (fun i => l.getD i 0)).map f := by
    rw [List.map_map]
    rfl
  rw [h1, range_map_getD]

theorem optStep_preserves_frame0
    {HG : Type} (applyPose : SE3 → (Fin 7 → ℚ) → SE3)
    (applyAff : AffLight → ℚ × ℚ → AffLight) (applyDepth : ℚ → ℚ → ℚ)
    (h1 : ∀ x, applyPose x (fun _ => 0) = x)
    (h2 : ∀ l, applyAff l 0 = l)
    (energy : Parameters → ℚ) (linearize : Parameters → HG)
    (solveDelta : HG → ℚ → DeltaParameterVector) (s : OptimizeSettings)
    (st : OptState Parameters HG) :
    (optStep ⟨energy, linearize, solveDelta,
        Parameters.update applyPose applyAff applyDepth⟩ s st).parameters.bodyToWorld 0 =
      st.parameters.bodyToWorld 0 ∧
    ∀ c, (optStep ⟨energy, linearize, solveDelta,
        Parameters.update applyPose applyAff applyDepth⟩ s st).parameters.lightWorldToFrame 0 c =
      st.parameters.lightWorldToFrame 0 c := by
  constructor
  · simp only [optStep]
    split <;> split <;>
      first
        | rfl
        | simp [Parameters.update, maskDelta, h1]
  · intro c
    simp only [optStep]
    split <;> split <;>
      first
        | rfl
        | simp [Parameters.update, maskDelta, h2]

/-! Claim theorems. -/

/-- C4: `StepController::newStep(oldEnergy, newEnergy, predictedEnergy)`
flips the signs of both reductions when the predicted one is negative,
forms `q = Δ_obs / Δ_pred`, and returns true with
`λ ← λ · max(minLambdaMultiplier, 1 − (2q−1)³)` and
`failMultiplier ← initialFailMultiplier` exactly when `q > acceptedQuality`;
otherwise it returns false with `λ ← λ · failMultiplier` and
`failMultiplier ← failMultiplier · failMultiplierMultiplier`. -/
theorem newStep_quality_dichotomy (settings : StepControlSettings)
    (sc : StepController) (oldEnergy newEnergy predictedEnergy : ℚ) :
    (predictionQualityOf oldEnergy newEnergy predictedEnergy > settings.acceptedQuality →
      StepController.newStep settings sc oldEnergy newEnergy predictedEnergy =
        (true, ⟨sc.mLambda *
          max settings.minLambdaMultiplier
            (1 - (2 * predictionQualityOf oldEnergy newEnergy predictedEnergy - 1) ^ 3),
          settings.initialFailMultiplier⟩)) ∧
    (¬ predictionQualityOf oldEnergy newEnergy predictedEnergy > settings.acceptedQuality →
      StepController.newStep settings sc oldEnergy newEnergy predictedEnergy =
        (false, ⟨sc.mLambda * sc.failMultiplier,
          sc.failMultiplier * settings.failMultiplierMultiplier⟩)) := by
  constructor
  · intro h
    simp only [predictionQualityOf] at h
    simp only [StepController.newStep, predictionQualityOf]
    rw [if_pos h]
    refine congrArg (Prod.mk true) ?_
    congr 1
    congr 1
    ring_nf
  · intro h
    simp only [predictionQualityOf] at h
    simp only [StepController.newStep]
    rw [if_neg h]

/-- Witness for C4: at `(old, new, predicted) = (10, 5, 4)` the quality is
`5/6 > 1/2`; the step succeeds, `λ = 1 · max(1/10, 1 − (2/3)³) = 19/27`
and the fail multiplier resets to `2`. -/
theorem newStep_quality_dichotomy_witness :
    StepController.newStep ⟨1, 1 / 2, 1 / 10, 2, 3⟩ ⟨1, 2⟩ 10 5 4 =
      (true, ⟨19 / 27, 2⟩) := by
  have hq : predictionQualityOf 10 5 4 = 5 / 6 := by
    norm_num [predictionQualityOf]
  have h := (newStep_quality_dichotomy ⟨1, 1 / 2, 1 / 10, 2, 3⟩ ⟨1, 2⟩ 10 5 4).1
    (by rw [hq]; norm_num)
  rw [h, hq]
  have hmax : max ((1 : ℚ) / 10) (1 - (2 * (5 / 6) - 1) ^ 3) = 19 / 27 := by
    rw [max_eq_right (by norm_num)]
    norm_num
  rw [hmax]
  norm_num

/-- C1: in every iteration of `EnergyFunction::optimize`, the trial step is
accepted (the `parametersUpdated` flag of the resulting state) iff the new
total energy is strictly below the current one; on a rejected iteration the
parameter block equals the snapshot saved before the update, exactly. -/
theorem optimize_accepts_iff_energy_decreases {P HG D : Type}
    (ops : OptimizeOps P HG D) (s : OptimizeSettings) (st : OptState P HG) :
    let hg := if st.parametersUpdated then ops.linearize st.parameters else st.hg
    let newEnergy := ops.energy (ops.update st.parameters (ops.solveDelta hg st.lambda))
    ((optStep ops s st).parametersUpdated = true ↔ newEnergy < st.curEnergy) ∧
    (st.curEnergy ≤ newEnergy →
      (optStep ops s st).parameters = st.parameters ∧
      (optStep ops s st).curEnergy = st.curEnergy) := by
  intro hg newEnergy
  by_cases h : st.curEnergy ≤ newEnergy
  · constructor
    · simp [optStep, h, not_lt.mpr h]
    · intro _
      simp [optStep, h]
  · constructor
    · simp [optStep, h, not_le.mp h]
    · intro hc
      exact absurd hc h

/-- Witness for C1: a rejecting instance; the parameter block after the
step equals the snapshot. -/
theorem optimize_accepts_iff_energy_decreases_witness :
    (optStep opsIncW optSettingsW stIncW).parameters = 5 ∧
    (optStep opsIncW optSettingsW stIncW).curEnergy = 5 :=
  (optimize_accepts_iff_energy_decreases opsIncW optSettingsW stIncW).2
    (by norm_num [opsIncW, stIncW])

/-- C5 (amended): in `EnergyFunction::optimize` a rejected iteration
multiplies lambda by the constant `settings.optimization.failMultiplier`
and an accepted one by `settings.optimization.successMultiplier`; the loop
keeps no growing fail multiplier. -/
theorem optimize_lambda_constant_multipliers {P HG D : Type}
    (ops : OptimizeOps P HG D) (s : OptimizeSettings) (st : OptState P HG) :
    let hg := if st.parametersUpdated then ops.linearize st.parameters else st.hg
    let newEnergy := ops.energy (ops.update st.parameters (ops.solveDelta hg st.lambda))
    (st.curEnergy ≤ newEnergy →
      (optStep ops s st).lambda = st.lambda * s.failMultiplier) ∧
    (newEnergy < st.curEnergy →
      (optStep ops s st).lambda = st.lambda * s.successMultiplier) := by
  intro hg newEnergy
  constructor
  · intro h
    simp [optStep, h]
  · intro h
    simp [optStep, not_le.mpr h]

/-- Witness for C5's amended statement: the rejecting instance multiplies
lambda by the settings' fail multiplier. -/
theorem optimize_lambda_constant_multipliers_witness :
    (optStep opsRejectW optSettingsW stRejectW).lambda = 2 := by
  have h := (optimize_lambda_constant_multipliers opsRejectW optSettingsW stRejectW).1
    (by norm_num [opsRejectW, stRejectW])
  rw [h]
  norm_num [stRejectW, optSettingsW]

/-- Counterexample for C5 as stated: two consecutive rejected iterations
multiply lambda by the constant fail multiplier `2` each time (total `4`),
not by a geometrically growing fail multiplier (which, with
`initialFailMultiplier = 2` and `failMultiplierMultiplier = 3`, would give
`12`). -/
theorem optimize_lambda_no_backoff_counterexample :
    (optStep opsRejectW optSettingsW stRejectW).parametersUpdated = false ∧
    (optStep opsRejectW optSettingsW
        (optStep opsRejectW optSettingsW stRejectW)).parametersUpdated = false ∧
    (optStep opsRejectW optSettingsW
        (optStep opsRejectW optSettingsW stRejectW)).lambda = 4 ∧
    (lambdaBackoffClaimC5 3 2 (1, 2)).1 = 12 ∧
    (4 : ℚ) ≠ 12 := by
  refine ⟨rfl, rfl, ?_, ?_, by norm_num⟩
  · simp [optStep, opsRejectW, optSettingsW, stRejectW]
    norm_num
  · norm_num [lambdaBackoffClaimC5]

/-- C10: `EnergyFunction::Values::totalEnergy` CHECK-fails (aborts) on an
empty residual set instead of returning zero, and succeeds on any nonempty
one. -/
theorem totalEnergy_aborts_on_empty (expQ : ℚ → Option ℚ)
    (parameters : Parameters) (cam : CameraBundle) (loss : LossFunction) :
    (createValues expQ [] parameters cam loss).totalEnergy = none ∧
    ∀ residuals : List Residual, residuals ≠ [] →
      (createValues expQ residuals parameters cam loss).totalEnergy ≠ none := by
  constructor
  · rfl
  · intro residuals hne
    have hl : 0 < (createValues expQ residuals parameters cam loss).valsAndCache.length := by
      simp [createValues, List.length_pos, hne]
    simp [Values.totalEnergy, hl]

/-- Witness for C10: the concrete empty construction aborts while a
one-residual construction does not. -/
theorem totalEnergy_aborts_on_empty_witness :
    (createValues (fun _ => some 1) [] parametersW camBundleW trivialLoss).totalEnergy = none ∧
    (createValues (fun _ => some 1) [resW2] parametersW camBundleW trivialLoss).totalEnergy ≠ none :=
  ⟨(totalEnergy_aborts_on_empty (fun _ => some 1) parametersW camBundleW trivialLoss).1,
   (totalEnergy_aborts_on_empty (fun _ => some 1) parametersW camBundleW trivialLoss).2
     [resW2] (by simp)⟩

/-- C2 (amended): on a nonempty `Values` whose pattern vectors all share
the first one's length, `totalEnergy` returns `Σ_residuals Σ_i ρ(r_i²)` —
the robust loss of each pattern value, with no per-sample weight. -/
theorem totalEnergy_is_unweighted_loss_sum (loss : LossFunction)
    (vals : List (List ℚ)) (hne : vals ≠ [])
    (hlen : ∀ l ∈ vals, l.length = (vals.headD []).length) :
    Values.totalEnergy ⟨vals, loss⟩ =
      some ((vals.map fun l => (l.map fun x => (loss (x * x)).1).sum).sum) := by
  unfold Values.totalEnergy
  rw [if_pos (by simpa [List.length_pos] using hne)]
  refine congrArg some ?_
  show vals.foldl
      (fun acc l =>
        (List.range (vals.headD []).length).foldl
          (fun a i => a + (loss (l.getD i 0 * l.getD i 0)).1) acc) 0 = _
  have hstep : ∀ (a : ℚ), ∀ l ∈ vals,
      (List.range (vals.headD []).length).foldl
        (fun acc i => acc + (loss (l.getD i 0 * l.getD i 0)).1) a
        = a + (l.map fun x => (loss (x * x)).1).sum := by
    intro a l hl
    rw [← hlen l hl]
    exact foldl_range_getD (fun x => (loss (x * x)).1) l a
  rw [List.foldl_ext
    (fun acc l =>
      (List.range (vals.headD []).length).foldl
        (fun a i => a + (loss (l.getD i 0 * l.getD i 0)).1) acc)
    (fun acc l => acc + (l.map fun x => (loss (x * x)).1).sum) 0
    (fun a l hl => hstep a l hl)]
  rw [foldl_add_map (fun l => (l.map fun x => (loss (x * x)).1).sum) vals 0]
  rw [zero_add]

/-- Witness for C2's amended statement at a concrete one-residual,
one-sample container. -/
theorem totalEnergy_is_unweighted_loss_sum_witness :
    Values.totalEnergy ⟨[[1]], trivialLoss⟩ = some 1 := by
  have h := totalEnergy_is_unweighted_loss_sum trivialLoss [[1]] (by simp) (by simp)
  rw [h]
  norm_num [trivialLoss]

/-- Counterexample for C2 as stated: with the trivial loss, a gradient
weight of `1/2` and a single pattern value `1` (as produced by `getValues`
on a concrete residual), `totalEnergy` returns `1` while the claimed
weighted formula gives `1/2`. -/
theorem totalEnergy_weighted_counterexample :
    resW2.getValues (fun _ => some 1) se3Id affId 0 = [1] ∧
    Values.totalEnergy ⟨[resW2.getValues (fun _ => some 1) se3Id affId 0], trivialLoss⟩ = some 1 ∧
    totalEnergyClaimC2 [resW2] [resW2.getValues (fun _ => some 1) se3Id affId 0] = some (1 / 2) ∧
    Values.totalEnergy ⟨[resW2.getValues (fun _ => some 1) se3Id affId 0], trivialLoss⟩ ≠
      totalEnergyClaimC2 [resW2] [resW2.getValues (fun _ => some 1) se3Id affId 0] := by
  have hv : resW2.getValues (fun _ => some 1) se3Id affId 0 = [1] := by
    simp [Residual.getValues, resW2, affId, AffLight.apply, List.range_succ]
  refine ⟨hv, ?_, ?_, ?_⟩
  · rw [hv]
    norm_num [Values.totalEnergy, trivialLoss, List.range_succ]
  · rw [hv]
    norm_num [totalEnergyClaimC2, Residual.getWeights, resW2, settingsW,
      trivialLoss, List.range_succ, sequenceOpt]
  · rw [hv]
    have h1 : Values.totalEnergy ⟨[[1]], trivialLoss⟩ = some 1 := by
      norm_num [Values.totalEnergy, trivialLoss, List.range_succ]
    have h2 : totalEnergyClaimC2 [resW2] [[1]] = some (1 / 2) := by
      norm_num [totalEnergyClaimC2, Residual.getWeights, resW2, settingsW,
        trivialLoss, List.range_succ, sequenceOpt]
    rw [h1, h2]
    norm_num

/-- C6 (amended): `getWeights` returns
`gradWeights[i] · (ρ₁ + 2 ρ₂ v_i²)` whenever that curvature is
non-negative, and applies the floor `lossEps · ρ₁` only when it is strictly
negative (additionally requiring `ρ₁ ≥ 0` there, on pain of a CHECK
abort). -/
theorem getWeights_floor_only_when_negative (r : Residual) (values : List ℚ)
    (h : ∀ i ∈ List.range r.gradWeights.length,
        (r.lossFunction (values.getD i 0 * values.getD i 0)).2.1 +
            2 * (r.lossFunction (values.getD i 0 * values.getD i 0)).2.2 *
              (values.getD i 0 * values.getD i 0) < 0 →
          0 ≤ (r.lossFunction (values.getD i 0 * values.getD i 0)).2.1) :
    r.getWeights values =
      some ((List.range r.gradWeights.length).map fun i =>
        let v := values.getD i 0
        let rho := r.lossFunction (v * v)
        let w := rho.2.1 + 2 * rho.2.2 * (v * v)
        r.gradWeights.getD i 0 *
          (if w < 0 then r.settings.lossEps * rho.2.1 else w)) := by
  unfold Residual.getWeights
  apply sequenceOpt_map_some
  intro i hi
  by_cases hw : (r.lossFunction (values.getD i 0 * values.getD i 0)).2.1 +
      2 * (r.lossFunction (values.getD i 0 * values.getD i 0)).2.2 *
        (values.getD i 0 * values.getD i 0) < 0
  · simp only [if_pos hw, if_pos (h i hi hw)]
  · simp only [if_neg hw]

/-- Witness for C6's amended statement: at the Huber-tail-like loss the
curvature is exactly zero, no floor is applied, and the weight is zero. -/
theorem getWeights_floor_only_when_negative_witness :
    resW6.getWeights [1] = some [0] := by
  have h := getWeights_floor_only_when_negative resW6 [1] (by
    intro i hi hlt
    have hi0 : i = 0 := by
      have hlt1 := List.mem_range.mp hi
      have hone : resW6.gradWeights.length = 1 := rfl
      omega
    subst hi0
    norm_num [resW6, resW2] at hlt)
  rw [h]
  norm_num [resW6, resW2, settingsW, List.range_succ]

/-- Counterexample for C6 as stated: with `ρ = (v², 1, −1/2)` at `v = 1`
(the exact curvature of Huber's linear tail), the code's weight is `0`
while the claimed `max` formula gives `lossEps · ρ₁ = 1/100`. -/
theorem getWeights_max_floor_counterexample :
    resW6.getWeights [1] = some [0] ∧
    getWeightsClaimC6 resW6 [1] = [1 / 100] ∧
    resW6.getWeights [1] ≠ some (getWeightsClaimC6 resW6 [1]) := by
  have h1 : resW6.getWeights [1] = some [0] := by
    norm_num [Residual.getWeights, resW6, resW2, settingsW, List.range_succ,
      sequenceOpt]
  have h2 : getWeightsClaimC6 resW6 [1] = [1 / 100] := by
    norm_num [getWeightsClaimC6, resW6, resW2, settingsW, List.range_succ]
  refine ⟨h1, h2, ?_⟩
  rw [h1, h2]
  intro heq
  have h3 := Option.some.inj heq
  norm_num at h3

/-- C8 (amended): on a non-finite depth, `getValues` reprojects through the
rotation part only, and `getJacobian` marks `isInfDepth` but computes every
block at the finite clamped depth `settings.depth.max` — the Jacobian it
returns is the one of the clamped-depth evaluation, not a rotation-only
one. -/
theorem nonfinite_depth_clamped (expQ : ℚ → Option ℚ) (r : Residual)
    (hostToTargetImage : SE3) (lightHostToTarget : AffLight) (logDepth : ℚ)
    (h : expQ logDepth = none) :
    r.getValues expQ hostToTargetImage lightHostToTarget logDepth =
      r.getValuesPureRotation hostToTargetImage lightHostToTarget ∧
    ∀ (dHostToTarget : MotionDerivatives) (lightWorldToHost : AffLight),
      (r.getJacobian expQ hostToTargetImage dHostToTarget lightWorldToHost
          lightHostToTarget logDepth).isInfDepth = true ∧
      r.getJacobian expQ hostToTargetImage dHostToTarget lightWorldToHost
          lightHostToTarget logDepth =
        { r.getJacobian (fun _ => some r.settings.depthMax) hostToTargetImage
            dHostToTarget lightWorldToHost lightHostToTarget logDepth with
          isInfDepth := true } := by
  refine ⟨?_, fun dHostToTarget lightWorldToHost => ⟨?_, ?_⟩⟩
  · simp [Residual.getValues, Residual.getValuesPureRotation, remapDepthed, h]
  · simp [Residual.getJacobian, h]
  · simp [Residual.getJacobian, h]

/-- Witness for C8's amended statement: a concrete residual whose
non-finite-depth Jacobian record is flagged and equals the clamped-depth
Jacobian with the flag set. -/
theorem nonfinite_depth_clamped_witness :
    resW8.getValues (fun _ => none) se3W8 affId 0 =
      resW8.getValuesPureRotation se3W8 affId ∧
    (resW8.getJacobian (fun _ => none) se3W8 mdZero affId affId 0).isInfDepth = true :=
  ⟨(nonfinite_depth_clamped (fun _ => none) resW8 se3W8 affId 0 rfl).1,
   ((nonfinite_depth_clamped (fun _ => none) resW8 se3W8 affId 0 rfl).2 mdZero affId).1⟩

/-- Counterexample for C8 as stated: at depth.max = 2 and a host-to-target
translation of 5 along the optical axis, the Jacobian sampled the target
image at x = 2 while a rotation-only Jacobian would sample it at x = 1;
the two records differ. -/
theorem jacobian_not_rotation_only_counterexample :
    (resW8.getJacobian (fun _ => none) se3W8 mdZero affId affId 0).isInfDepth = true ∧
    ((resW8.getJacobian (fun _ => none) se3W8 mdZero affId affId 0).gradItarget.getD 0 0) 0 = 2 ∧
    ((resW8.getJacobianRotationOnlyClaim se3W8 mdZero affId affId).gradItarget.getD 0 0) 0 = 1 ∧
    resW8.getJacobian (fun _ => none) se3W8 mdZero affId affId 0 ≠
      resW8.getJacobianRotationOnlyClaim se3W8 mdZero affId affId := by
  have hcode : ((resW8.getJacobian (fun _ => none) se3W8 mdZero affId affId 0).gradItarget.getD 0 0) 0 = 2 := by
    norm_num [Residual.getJacobian, resW8, resW2, settingsW, camXY, se3W8,
      SE3.act, Matrix.one_mulVec, List.range_succ]
  have hrot : ((resW8.getJacobianRotationOnlyClaim se3W8 mdZero affId affId).gradItarget.getD 0 0) 0 = 1 := by
    norm_num [Residual.getJacobianRotationOnlyClaim, resW8, resW2, settingsW,
      camXY, se3W8, Matrix.one_mulVec, List.range_succ]
  refine ⟨rfl, hcode, hrot, ?_⟩
  intro heq
  have h2 : ((resW8.getJacobian (fun _ => none) se3W8 mdZero affId affId 0).gradItarget.getD 0 0) 0 =
      ((resW8.getJacobianRotationOnlyClaim se3W8 mdZero affId affId).gradItarget.getD 0 0) 0 :=
    congrArg (fun j => (j.gradItarget.getD 0 0) 0) heq
  rw [hcode, hrot] at h2
  norm_num at h2

theorem se3_left_mul_cancel (Tl a b : SE3)
    (h : Tl.so3.transpose * Tl.so3 = 1) :
    ((Tl.comp a).inv).comp (Tl.comp b) = (a.inv).comp b := by
  unfold SE3.comp SE3.inv
  refine SE3.ext ?_ ?_
  · show (Tl.so3 * a.so3).transpose * (Tl.so3 * b.so3)
        = a.so3.transpose * b.so3
    rw [Matrix.transpose_mul, Matrix.mul_assoc,
      ← Matrix.mul_assoc Tl.so3.transpose Tl.so3 b.so3, h, Matrix.one_mul]
  · show (Tl.so3 * a.so3).transpose.mulVec (Tl.so3.mulVec b.t + Tl.t) +
        -((Tl.so3 * a.so3).transpose.mulVec (Tl.so3.mulVec a.t + Tl.t))
        = a.so3.transpose.mulVec b.t + -(a.so3.transpose.mulVec a.t)
    have key : ∀ x : Vec3,
        (Tl.so3 * a.so3).transpose.mulVec (Tl.so3.mulVec x + Tl.t)
          = a.so3.transpose.mulVec x +
            (a.so3.transpose * Tl.so3.transpose).mulVec Tl.t := by
      intro x
      rw [Matrix.transpose_mul, Matrix.mulVec_add, Matrix.mulVec_mulVec,
        Matrix.mul_assoc, h, Matrix.mul_one]
    rw [key b.t, key a.t]
    ring_nf

/-- C7: left-multiplying every keyframe body-to-world pose by a fixed rigid
transform (orthogonal rotation part) leaves every entry of
`PrecomputedHostToTarget` unchanged, and hence every residual value
computed by `Residual::getValues` from those entries is identical in the
two runs. -/
theorem gauge_invariance_rigid (cam : CameraBundle) (parameters : Parameters)
    (Tl : SE3) (h : Tl.so3.transpose * Tl.so3 = 1)
    (hostInd hostCamInd targetInd targetCamInd : ℕ) :
    precomputedHostToTarget cam
        { parameters with bodyToWorld := fun i => Tl.comp (parameters.bodyToWorld i) }
        hostInd hostCamInd targetInd targetCamInd =
      precomputedHostToTarget cam parameters hostInd hostCamInd targetInd targetCamInd ∧
    ∀ (expQ : ℚ → Option ℚ) (r : Residual) (light : AffLight) (logDepth : ℚ),
      r.getValues expQ
          (precomputedHostToTarget cam
            { parameters with bodyToWorld := fun i => Tl.comp (parameters.bodyToWorld i) }
            hostInd hostCamInd targetInd targetCamInd)
          light logDepth =
        r.getValues expQ
          (precomputedHostToTarget cam parameters hostInd hostCamInd targetInd targetCamInd)
          light logDepth := by
  have htab : precomputedHostToTarget cam
      { parameters with bodyToWorld := fun i => Tl.comp (parameters.bodyToWorld i) }
      hostInd hostCamInd targetInd targetCamInd =
      precomputedHostToTarget cam parameters hostInd hostCamInd targetInd targetCamInd := by
    unfold precomputedHostToTarget
    simp only
    rw [se3_left_mul_cancel Tl (parameters.bodyToWorld targetInd)
      (parameters.bodyToWorld hostInd) h]
  exact ⟨htab, fun expQ r light logDepth => by rw [htab]⟩

/-- Witness for C7 at a permutation-rotation gauge transform on the
concrete two-keyframe scene. -/
theorem gauge_invariance_rigid_witness :
    precomputedHostToTarget camBundleW
        { parametersW with bodyToWorld := fun i => gaugeW.comp (parametersW.bodyToWorld i) }
        0 0 1 0 =
      precomputedHostToTarget camBundleW parametersW 0 0 1 0 :=
  (gauge_invariance_rigid camBundleW parametersW gaugeW
    (by
      ext i j
      fin_cases i <;> fin_cases j <;>
        simp [gaugeW, Matrix.mul_apply, Fin.sum_univ_three, Matrix.one_apply,
          Matrix.transpose_apply, Matrix.vecHead, Matrix.vecTail,
          Function.comp])
    0 0 1 0).1

theorem applyPoseW_zero : ∀ x, applyPoseW x (fun _ => 0) = x := by
  intro x
  unfold applyPoseW
  have hz : ![(0 : ℚ), 0, 0] = (0 : Vec3) := by
    funext i
    fin_cases i <;> rfl
  refine SE3.ext rfl ?_
  show x.t + ![(0 : ℚ), 0, 0] = x.t
  rw [hz, add_zero]

theorem applyAffW_zero : ∀ l, applyAffW l 0 = l := by
  intro l
  unfold applyAffW
  refine congrArg₂ AffLight.mk ?_ ?_ <;> simp

/-- C9: keyframe 0's pose and per-camera affine parameters are unchanged
across a full optimization run.  In `BundleAdjusterCeres::adjust`,
keyframe 0's translation, rotation and every affine block are in the set
passed to `SetParameterBlockConstant`; `DeltaParameterVector::setAffineZero`
starts at frame index 1, never touching frame 0's affine delta; and with
`Parameters::update` masking frame 0's delta entries (spec-modelled) and an
update application that is the identity at a zero delta, iterating the
optimize loop any number of steps preserves keyframe 0's pose and affine
parameters exactly. -/
theorem anchor_frame_zero_immovable
    (bas : BundleAdjusterSettings) (numCameras size : ℕ) (radius : ℚ)
    (applyPose : SE3 → (Fin 7 → ℚ) → SE3) (applyAff : AffLight → ℚ × ℚ → AffLight)
    (applyDepth : ℚ → ℚ → ℚ)
    (h1 : ∀ x, applyPose x (fun _ => 0) = x) (h2 : ∀ l, applyAff l 0 = l) :
    (CeresBlock.trans 0 ∈ constantBlocks bas numCameras size radius ∧
     CeresBlock.rot 0 ∈ constantBlocks bas numCameras size radius ∧
     ∀ c < numCameras, CeresBlock.aff 0 c ∈ constantBlocks bas numCameras size radius) ∧
    (∀ (d : DeltaParameterVector) (c : ℕ), d.setAffineZero.aff 0 c = d.aff 0 c) ∧
    (∀ (HG : Type) (energy : Parameters → ℚ) (linearize : Parameters → HG)
        (solveDelta : HG → ℚ → DeltaParameterVector) (s : OptimizeSettings)
        (n : ℕ) (st : OptState Parameters HG),
      (optIterate ⟨energy, linearize, solveDelta,
          Parameters.update applyPose applyAff applyDepth⟩ s n st).parameters.bodyToWorld 0 =
        st.parameters.bodyToWorld 0 ∧
      ∀ c, (optIterate ⟨energy, linearize, solveDelta,
          Parameters.update applyPose applyAff applyDepth⟩ s n st).parameters.lightWorldToFrame 0 c =
        st.parameters.lightWorldToFrame 0 c) := by
  refine ⟨⟨?_, ?_, ?_⟩, ?_, ?_⟩
  · simp [constantBlocks]
  · simp [constantBlocks]
  · intro c hc
    simp only [constantBlocks, List.mem_append]
    exact Or.inl (Or.inl (Or.inl (Or.inr
      (List.mem_map.mpr ⟨c, List.mem_range.mpr hc, rfl⟩))))
  · intro d c
    simp [DeltaParameterVector.setAffineZero]
  · intro HG energy linearize solveDelta s n
    induction n with
    | zero => exact fun st => ⟨rfl, fun _ => rfl⟩
    | succ n ih =>
      intro st
      have hstep := optStep_preserves_frame0 applyPose applyAff applyDepth
        h1 h2 energy linearize solveDelta s st
      have hih := ih (optStep ⟨energy, linearize, solveDelta,
        Parameters.update applyPose applyAff applyDepth⟩ s st)
      refine ⟨?_, fun c => ?_⟩
      · show (optIterate _ s n (optStep _ s st)).parameters.bodyToWorld 0 = _
        rw [hih.1, hstep.1]
      · show (optIterate _ s n (optStep _ s st)).parameters.lightWorldToFrame 0 c = _
        rw [hih.2 c, hstep.2 c]

/-- Witness for C9: concrete mechanisms on the two-keyframe scene; keyframe
0's pose survives three optimize iterations with a nonzero delta vector. -/
theorem anchor_frame_zero_immovable_witness :
    CeresBlock.trans 0 ∈ constantBlocks ⟨true, 1, false, false⟩ 1 2 2 ∧
    (optIterate ⟨fun _ => 0, fun _ => (), fun _ _ => deltaW,
        Parameters.update applyPoseW applyAffW applyDepthW⟩ optSettingsW 3
      stParamsW).parameters.bodyToWorld 0 = parametersW.bodyToWorld 0 :=
  ⟨(anchor_frame_zero_immovable ⟨true, 1, false, false⟩ 1 2 2
      applyPoseW applyAffW applyDepthW applyPoseW_zero applyAffW_zero).1.1,
   ((anchor_frame_zero_immovable ⟨true, 1, false, false⟩ 1 2 2
      applyPoseW applyAffW applyDepthW applyPoseW_zero applyAffW_zero).2.2
      Unit (fun _ => 0) (fun _ => ()) (fun _ _ => deltaW) optSettingsW 3 stParamsW).1⟩

theorem mem_residualTargets (cam : CameraBundle) (parameters : Parameters)
    (numKeyFrames PH hostInd hostCamInd : ℕ) (ray : Vec3) (tc : ℕ × ℕ)
    (h : tc ∈ residualTargets cam parameters numKeyFrames PH hostInd hostCamInd ray) :
    hostInd ≠ tc.1 ∧
    ((cam.bundle tc.2).cam.isMappable
        ((precomputedHostToTarget cam parameters hostInd hostCamInd tc.1 tc.2).act ray) = true) ∧
    ((cam.bundle tc.2).cam.isOnImage
        ((cam.bundle tc.2).cam.map
          ((precomputedHostToTarget cam parameters hostInd hostCamInd tc.1 tc.2).act ray))
        PH = true) := by
  obtain ⟨ti, tci⟩ := tc
  simp only [residualTargets, List.mem_flatMap, List.mem_range] at h
  obtain ⟨ti', hti', h2⟩ := h
  by_cases he : hostInd = ti'
  · rw [if_pos he] at h2
    simp at h2
  · rw [if_neg he] at h2
    simp only [List.mem_filterMap, List.mem_range] at h2
    obtain ⟨tci', htci', h3⟩ := h2
    split_ifs at h3 with hm ho
    · obtain ⟨rfl, rfl⟩ : ti' = ti ∧ tci' = tci := by simpa using h3
      exact ⟨he, hm, ho⟩

theorem constructStep_invariant (expQ : ℚ → Option ℚ) (sqrtQ : ℚ → ℚ)
    (depthOf : OptimizedPoint → ℚ) (cam : CameraBundle)
    (keyFrames : ℕ → KeyFrame) (numKeyFrames : ℕ) (loss : LossFunction)
    (settings : ResidualSettings) (parameters : Parameters)
    (acc : List Residual × ℕ) (t : ℕ × ℕ × OptimizedPoint)
    (hacc : ∀ r ∈ acc.1, residualInvariant cam parameters settings.height depthOf r) :
    ∀ r ∈ (constructStep expQ sqrtQ depthOf cam keyFrames numKeyFrames loss
        settings parameters acc t).1,
      residualInvariant cam parameters settings.height depthOf r := by
  intro r hr
  simp only [constructStep] at hr
  split_ifs at hr with hstate hempty
  · exact hacc r hr
  · rw [List.mem_append] at hr
    rcases hr with hr | hr
    · exact hacc r hr
    · obtain ⟨tc, htc, rfl⟩ := List.mem_map.mp hr
      have hconds := mem_residualTargets cam parameters numKeyFrames
        settings.height t.1 t.2.1 (depthOf t.2.2 • t.2.2.dir) tc htc
      exact ⟨hconds.1, hstate, hconds.2.1, hconds.2.2⟩
  · exact hacc r hr

theorem constructResiduals_foldl_invariant (expQ : ℚ → Option ℚ)
    (sqrtQ : ℚ → ℚ) (depthOf : OptimizedPoint → ℚ) (cam : CameraBundle)
    (keyFrames : ℕ → KeyFrame) (numKeyFrames : ℕ) (loss : LossFunction)
    (settings : ResidualSettings) (parameters : Parameters) :
    ∀ (l : List (ℕ × ℕ × OptimizedPoint)) (acc : List Residual × ℕ),
      (∀ r ∈ acc.1, residualInvariant cam parameters settings.height depthOf r) →
      ∀ r ∈ (l.foldl (constructStep expQ sqrtQ depthOf cam keyFrames
          numKeyFrames loss settings parameters) acc).1,
        residualInvariant cam parameters settings.height depthOf r := by
  intro l
  induction l with
  | nil => exact fun acc hacc => hacc
  | cons t ts ih =>
    intro acc hacc
    exact ih _ (constructStep_invariant expQ sqrtQ depthOf cam keyFrames
      numKeyFrames loss settings parameters acc t hacc)

/-- C3: every residual built by the `EnergyFunction` constructor has
distinct host and target frames, references an ACTIVE point, and its
point's ray under the precomputed host-to-target transform is mappable and
projects onto the target image within border `residualPattern.height`; any
combination violating one of these conditions yields no residual; and the
residual set is never changed by the optimize loop. -/
theorem residual_set_invariant (expQ : ℚ → Option ℚ) (sqrtQ : ℚ → ℚ)
    (depthOf : OptimizedPoint → ℚ) (cam : CameraBundle)
    (keyFrames : ℕ → KeyFrame) (numKeyFrames : ℕ) (loss : LossFunction)
    (settings : ResidualSettings) (parameters : Parameters) :
    (∀ r ∈ (constructResiduals expQ sqrtQ depthOf cam keyFrames numKeyFrames
        loss settings parameters).1,
      residualInvariant cam parameters settings.height depthOf r) ∧
    (∀ (hostInd hostCamInd targetInd targetCamInd : ℕ) (op : OptimizedPoint),
      ¬ residualConditions cam parameters settings.height depthOf
          hostInd hostCamInd targetInd targetCamInd op →
      ∀ r ∈ (constructResiduals expQ sqrtQ depthOf cam keyFrames numKeyFrames
          loss settings parameters).1,
        ¬ (r.hostInd = hostInd ∧ r.hostCamInd = hostCamInd ∧
           r.targetInd = targetInd ∧ r.targetCamInd = targetCamInd ∧
           r.point = op)) ∧
    (∀ (P HG D : Type) (ops : OptimizeOps P HG D) (s : OptimizeSettings)
        (n : ℕ) (st : OptState P HG),
      (optIterate ops s n st).residuals = st.residuals) := by
  have hpart1 : ∀ r ∈ (constructResiduals expQ sqrtQ depthOf cam keyFrames
      numKeyFrames loss settings parameters).1,
      residualInvariant cam parameters settings.height depthOf r := by
    unfold constructResiduals
    exact constructResiduals_foldl_invariant expQ sqrtQ depthOf cam keyFrames
      numKeyFrames loss settings parameters _ ([], 0)
      (by intro r hr; simp at hr)
  refine ⟨hpart1, ?_, ?_⟩
  · intro hostInd hostCamInd targetInd targetCamInd op hviol r hr hmatch
    obtain ⟨e1, e2, e3, e4, e5⟩ := hmatch
    have hinv := hpart1 r hr
    unfold residualInvariant at hinv
    rw [e1, e2, e3, e4, e5] at hinv
    exact hviol hinv
  · intro P HG D ops s n
    induction n with
    | zero => exact fun st => rfl
    | succ n ih =>
      intro st
      have h1 : (optStep ops s st).residuals = st.residuals := by
        simp only [optStep]
        split <;> first | rfl | (split <;> rfl)
      show (optIterate ops s n (optStep ops s st)).residuals = st.residuals
      rw [ih (optStep ops s st), h1]

/-- Witness for C3: in the concrete two-keyframe scene the constructor
builds exactly one residual, and it satisfies the invariant. -/
theorem residual_set_invariant_witness :
    residualInvariant camBundleW parametersW settingsW.height (fun _ => 1)
      ((constructResiduals (fun _ => some 1) id (fun _ => 1) camBundleW
          keyFramesW 2 trivialLoss settingsW parametersW).1.headD residualDefault) := by
  have hlen : (constructResiduals (fun _ => some 1) id (fun _ => 1) camBundleW
      keyFramesW 2 trivialLoss settingsW parametersW).1.length = 1 := by decide
  have hmem : (constructResiduals (fun _ => some 1) id (fun _ => 1) camBundleW
      keyFramesW 2 trivialLoss settingsW parametersW).1.headD residualDefault ∈
      (constructResiduals (fun _ => some 1) id (fun _ => 1) camBundleW
        keyFramesW 2 trivialLoss settingsW parametersW).1 := by
    cases hL : (constructResiduals (fun _ => some 1) id (fun _ => 1) camBundleW
        keyFramesW 2 trivialLoss settingsW parametersW).1 with
    | nil => rw [hL] at hlen; simp at hlen
    | cons a t => simp [List.headD]
  exact (residual_set_invariant (fun _ => some 1) id (fun _ => 1) camBundleW
    keyFramesW 2 trivialLoss settingsW parametersW).1 _ hmem

end Mdso
